import Mathlib

/-!
Shallow embedding of the crawl engine of `dcrawl` (src/src/crawler.go).

The four Redis databases `todo`, `doing`, `done`, `trash` (DB 0..3) and the
settings database (DB 4) are modelled as association lists from keys to
values; `kvGet`, `kvSet`, `kvDel` mirror the Redis GET/SET/DEL commands used
by the source (SET overwrites, DEL removes, GET returns nil for a missing
key).  All strings in the claims are ASCII, so Go byte indexing and Lean
character indexing agree.
-/

namespace DCrawl

def kvGet : List (String × String) → String → Option String
  | [], _ => none
  | (k', v) :: rest, k => if k' = k then some v else kvGet rest k

def kvDel : List (String × String) → String → List (String × String)
  | [], _ => []
  | (k', v) :: rest, k => if k' = k then kvDel rest k else (k', v) :: kvDel rest k

def kvSet (l : List (String × String)) (k v : String) : List (String × String) :=
  (k, v) :: kvDel l k

/-- The `Settings` struct of the source (crawler.go lines 33-42). -/
structure Settings where
  baseURL : String
  pluckConfig : String
  keywordsToExclude : List String
  keywordsToInclude : List String
  allowQueryParameters : Bool
  allowHashParameters : Bool
  dontFollowLinks : Bool
  requirePluck : Bool
deriving DecidableEq, Repr

/-- The durable and process-local crawl state: the four URL namespaces
(Redis DB 0-3), the settings key space (Redis DB 4, written by `Init`),
the consecutive-block counter `c.errors` (an int64 in the source, hence
`Int`) and the parsed-URL counter `c.numberOfURLSParsed`. -/
structure CrawlState where
  todo : List (String × String)
  doing : List (String × String)
  done : List (String × String)
  trash : List (String × String)
  settings : List (String × String)
  errors : Int
  parsed : Nat
deriving DecidableEq, Repr

/-- Membership count of a key over the four URL namespaces; the partition
invariant of the spec states this is at most 1 for every key. -/
def nsCount (st : CrawlState) (k : String) : Nat :=
  (if (kvGet st.todo k).isSome then 1 else 0) +
  (if (kvGet st.doing k).isSome then 1 else 0) +
  (if (kvGet st.done k).isSome then 1 else 0) +
  (if (kvGet st.trash k).isSome then 1 else 0)

/-- The partition invariant: every key lives in at most one of the four
namespaces. -/
def Partition (st : CrawlState) : Prop := ∀ k, nsCount st k ≤ 1

/-- Substring test on lists of characters, mirroring Go `strings.Contains`
(a scan trying every suffix). -/
def hasSubAux (n : List Char) : List Char → Bool
  | [] => n.isEmpty
  | c :: t => n.isPrefixOf (c :: t) || hasSubAux n t

/-- Go `strings.Contains hay needle`; the claims only involve ASCII strings,
where Go byte positions and Lean characters coincide. -/
def strHasSub (hay needle : String) : Bool :=
  hasSubAux needle.toList hay.toList

/-- Splits a character list at the first occurrence of a separator, giving
the parts before and after it; `none` when the separator does not occur. -/
def breakOnFirst (sep : List Char) : List Char → Option (List Char × List Char)
  | [] => if sep.isEmpty then some ([], []) else none
  | c :: t =>
    if sep.isPrefixOf (c :: t) then some ([], (c :: t).drop sep.length)
    else match breakOnFirst sep t with
      | some (pre, post) => some (c :: pre, post)
      | none => none

/-- Modelled from the spec: the URL normalizer (`goware/urlx`, an external
collaborator of §6; its code is not part of this repository): it maps a raw
URL to a canonical form — lowercased scheme and host, default port removed —
and is idempotent.  Inputs without a `scheme://` part are returned
unchanged. -/
def normalizeURL (u : String) : String :=
  match breakOnFirst [':', '/', '/'] u.toList with
  | some (scheme, rest) =>
    let hostport := rest.takeWhile (fun ch => ch ≠ '/')
    let path := rest.drop hostport.length
    let host := hostport.takeWhile (fun ch => ch ≠ ':')
    let port := hostport.drop host.length
    let lscheme := scheme.map Char.toLower
    let lhost := host.map Char.toLower
    let port' := if (lscheme = "http".toList ∧ port = [':', '8', '0']) ∨
                    (lscheme = "https".toList ∧ port = [':', '4', '4', '3'])
      then [] else port
    String.mk (lscheme ++ [':', '/', '/'] ++ lhost ++ port' ++ path)
  | none => u

/-- One pass of the link pipeline of `scrapeLinks` (crawler.go lines
523-584) on a single raw link: query strip, hash strip, base-URL prefixing
(only for links longer than 2 bytes that do not contain "http"), scope
filter (base URL must be a substring), normalization, exclude keywords,
include keywords.  Returns the surviving candidate, if any. -/
def processLink (s : Settings) (link0 : String) : Option String :=
  let c0 := link0.toList
  let c1 := if hasSubAux ['?'] c0 ∧ ¬ s.allowQueryParameters = true
    then c0.takeWhile (fun ch => ch ≠ '?') else c0
  let c2 := if hasSubAux ['#'] c1 ∧ ¬ s.allowHashParameters = true
    then c1.takeWhile (fun ch => ch ≠ '#') else c1
  let base := s.baseURL.toList
  let c3 := if ¬ hasSubAux "http".toList c2 = true ∧ c2.length > 2 then
      (if base.getLastD ' ' ≠ '/' ∧ c2.headD ' ' ≠ '/'
        then base ++ '/' :: c2 else base ++ c2)
    else c2
  if ¬ hasSubAux base c3 = true then none
  else
    let n := normalizeURL (String.mk c3)
    if n.toList.length = 0 then none
    else if s.keywordsToExclude.any (fun kw => strHasSub n kw) then none
    else if s.keywordsToInclude.length > 0 ∧
            ¬ s.keywordsToInclude.any (fun kw => strHasSub n kw) = true then none
    else some n

/-- The whole link pipeline: candidates, kept in page order (the source
builds an array, skipping rejected links). -/
def processLinks (s : Settings) (links : List String) : List String :=
  links.filterMap (processLink s)

/-- Whether a link already exists in one of the four namespaces — the four
sequential GET probes of `addLinkToDo` (crawler.go lines 401-419). -/
def linkKnown (st : CrawlState) (link : String) : Bool :=
  (kvGet st.todo link).isSome || (kvGet st.doing link).isSome ||
  (kvGet st.done link).isSome || (kvGet st.trash link).isSome

/-- `addLinkToDo` (crawler.go lines 400-424): without `force`, a silent
no-op when the link is already known; otherwise SET into `todo` with empty
value. -/
def addLinkToDo (st : CrawlState) (link : String) (force : Bool) : CrawlState :=
  if !force && linkKnown st link then st
  else { st with todo := kvSet st.todo link "" }

/-- `Flush` (crawler.go lines 427-445).  Each of the four calls is
`FlushAll`, the Redis FLUSHALL command, which erases every database of the
server — including DB 4 that holds the serialized settings — not just the
client's own database. -/
def flush (st : CrawlState) : CrawlState :=
  { st with todo := [], doing := [], done := [], trash := [], settings := [] }

/-- Outcome of the single HTTP GET issued by `scrapeLinks`: a transport
failure (from `client.Do`), or a response with a status code together with
what the two external extractors (pluck, collectlinks — external
collaborators of §6) produce from its body. -/
inductive FetchResult where
  | transportError
  | response (status : Nat) (plucked : String) (links : List String)
deriving DecidableEq, Repr

/-- Result of `scrapeLinks` as seen by the worker: the `(linkCandidates,
pluckedData, err)` triple, with a non-nil `err` collapsed to `.fail`. -/
inductive ScrapeResult where
  | ok (links : List String) (plucked : String)
  | fail (msg : String)
deriving DecidableEq, Repr

/-- `scrapeLinks` (crawler.go lines 447-589).  An empty URL returns at once
with no error; a transport error returns the wrapped error without touching
any namespace; a non-200 status deletes the URL from `doing` and `todo`,
inserts it into `trash`, and on a 403 increments the block counter,
returning an error exactly when the counter now exceeds the configured
maximum; a 200 resets the counter, runs the plucker (the `plucked` field of
the response; a required-but-empty pluck is an error) and, unless link
following is off, the link pipeline. -/
def scrapeLinks (s : Settings) (maxErrors : Int) (st : CrawlState) (url : String)
    (fetch : FetchResult) : CrawlState × ScrapeResult :=
  if url = "" then (st, .ok [] "")
  else match fetch with
  | .transportError => (st, .fail "could not make do request")
  | .response status plucked links =>
    if status ≠ 200 then
      let st1 := { st with doing := kvDel st.doing url, todo := kvDel st.todo url,
                           trash := kvSet st.trash url "" }
      if status = 403 then
        let st2 := { st1 with errors := st1.errors + 1 }
        if st2.errors > maxErrors then (st2, .fail "got blocked code") else (st2, .ok [] "")
      else (st1, .ok [] "")
    else
      let st1 := { st with errors := 0 }
      if s.pluckConfig ≠ "" ∧ s.requirePluck = true ∧ plucked.length = 0 then
        (st1, .fail "no data plucked")
      else
        let pluckedData := if s.pluckConfig ≠ "" then plucked else ""
        if s.dontFollowLinks then (st1, .ok [] pluckedData)
        else (st1, .ok (processLinks s links) pluckedData)

/-- One iteration of the worker loop `crawl` (crawler.go lines 591-638):
on a scrape error, log and move the URL back to `todo` (delete from
`doing`, SET into `todo`) and continue; on success, move the URL from
`doing` to `done` with the plucked data, then enqueue every candidate with
`force = false`, and bump the parsed counter.  The swallowed scrape result
is returned alongside the state. -/
def workerStep (s : Settings) (maxErrors : Int) (st : CrawlState) (url : String)
    (fetch : FetchResult) : CrawlState × ScrapeResult :=
  match scrapeLinks s maxErrors st url fetch with
  | (st1, .fail msg) =>
    ({ st1 with doing := kvDel st1.doing url, todo := kvSet st1.todo url "" }, .fail msg)
  | (st1, .ok links plucked) =>
    let st2 := { st1 with doing := kvDel st1.doing url, done := kvSet st1.done url plucked }
    let st3 := links.foldl (fun acc l => addLinkToDo acc l false) st2
    ({ st3 with parsed := st3.parsed + 1 }, .ok links plucked)

/-- First-occurrence deduplication, the effect of collecting the sampled
keys in the `urlsToDoMap` map (crawler.go lines 712-726); Go map iteration
order is arbitrary, resolved here to first-occurrence order. -/
def dedupKeys (keys : List String) : List String :=
  keys.foldl (fun acc k => if acc.contains k then acc else acc ++ [k]) []

/-- The two-step move of a batch from `todo` to `doing` (crawler.go lines
732-747): one multi-key DEL on `todo`, then one MSET into `doing` with
empty values. -/
def moveToDoing (st : CrawlState) (keys : List String) : CrawlState :=
  { st with todo := keys.foldl kvDel st.todo,
            doing := keys.foldl (fun d k => kvSet d k "") st.doing }

/-- One dispatch of the `Crawl` loop body (crawler.go lines 712-752): each
`RandomKey` sample that fails contributes the zero-value key `""` to the
batch (the key is inserted into the map regardless of `errRandom`); the
deduplicated batch, unless empty, is deleted from `todo`, MSET into
`doing`, and handed to the workers. -/
def dispatchCycle (st : CrawlState) (samples : List (Option String)) :
    CrawlState × List String :=
  let keys := dedupKeys (samples.map (fun o => o.getD ""))
  if keys.length = 0 then (st, [])
  else (moveToDoing st keys, keys)

/-- Result of a `Crawl` run (crawler.go lines 667-757): the final state,
whether the loop reached its quiescence `break` ("No more work to do!"),
and the error `Crawl` returns to its caller.  The worker goroutines swallow
all scrape errors (lines 598-609), and the `err` assigned inside the loop
body is a fresh variable shadowing the named return (`:=` at line 693), so
the `break` path returns the caller a nil error. -/
structure RunResult where
  state : CrawlState
  finished : Bool
  fatalErr : Option String
deriving DecidableEq, Repr

/-- Fuel-indexed sequential execution of the `Crawl` dispatcher loop
(crawler.go lines 682-753) together with the workers it feeds: backpressure
skip when the `doing` size exceeds `MaxQueueSize`; two-phase quiescence on
an empty `todo` via the `haveResults` flag; otherwise a batch of up to
`MaxNumberWorkers` keys is taken from `todo` (the model resolves
`RandomKey`'s randomness to the first distinct keys), moved to `doing`, and
each job is processed to completion by a worker against the fetch outcomes
`web` before the next cycle (a sequential schedule of the concurrent
original). -/
def runCrawl (s : Settings) (maxErrors : Int) (w maxQueue : Nat)
    (web : String → FetchResult) : Nat → Bool → CrawlState → RunResult
  | 0, _, st => ⟨st, false, none⟩
  | Nat.succ fuel, haveResults, st =>
    if st.doing.length > maxQueue then
      runCrawl s maxErrors w maxQueue web fuel haveResults st
    else if st.todo.length = 0 then
      if haveResults then runCrawl s maxErrors w maxQueue web fuel false st
      else ⟨st, true, none⟩
    else
      let keys := (st.todo.map Prod.fst).take w
      let st1 := moveToDoing st keys
      let st2 := keys.foldl (fun acc k => (workerStep s maxErrors acc k (web k)).1) st1
      runCrawl s maxErrors w maxQueue web fuel true st2

/-- What a dispatcher cycle does, as decided from the sizes it reads
(crawler.go lines 686-710): back off under backpressure (no sampling, no
batch), grace-wait on a first empty `todo` observation, exit on a second
consecutive empty observation, or sample and dispatch a batch. -/
inductive CycleAction where
  | backoff
  | grace
  | exitLoop
  | dispatch
deriving DecidableEq, Repr

/-- Control decision of one cycle of the `Crawl` loop from one observation
`ob = (doing size read at line 686, todo size read at line 693)` and the
`haveResults` flag; returns the action and the updated flag. -/
def cycleAction (maxQueue : Nat) (haveResults : Bool) (ob : Nat × Nat) :
    CycleAction × Bool :=
  if ob.1 > maxQueue then (.backoff, haveResults)
  else if ob.2 = 0 then
    (if haveResults then (.grace, false) else (.exitLoop, false))
  else (.dispatch, true)

/-- Runs the dispatcher control over a trace of size observations (the
sizes are read from Redis while workers mutate it concurrently, so the
trace is arbitrary); returns the index of the observation on which the
loop exits, if it does. -/
def loopExit (maxQueue : Nat) : List (Nat × Nat) → Bool → Option Nat
  | [], _ => none
  | ob :: rest, haveResults =>
    let p := cycleAction maxQueue haveResults ob
    if p.1 = CycleAction.exitLoop then some 0
    else (loopExit maxQueue rest p.2).map (· + 1)

/-- The actions the dispatcher takes along a trace of size observations,
ending with the exit action when the loop exits. -/
def loopActions (maxQueue : Nat) : List (Nat × Nat) → Bool → List CycleAction
  | [], _ => []
  | ob :: rest, haveResults =>
    let p := cycleAction maxQueue haveResults ob
    if p.1 = CycleAction.exitLoop then [p.1]
    else p.1 :: loopActions maxQueue rest p.2

/-- Observation `i` of a trace read `todo` as empty while not under
backpressure: an "empty check". -/
def emptyCheckAt (maxQueue : Nat) (obs : List (Nat × Nat)) (i : Nat) : Prop :=
  ∃ d, obs.get? i = some (d, 0) ∧ d ≤ maxQueue

/-- Observation `i` of a trace found `doing` above the backpressure bound. -/
def backpressureAt (maxQueue : Nat) (obs : List (Nat × Nat)) (i : Nat) : Prop :=
  ∃ p, obs.get? i = some p ∧ p.1 > maxQueue

/-- Settings used by the scope-filter property: base URL
`http://example.com`, no pluck rule, no keyword filters, query and hash
parameters disallowed. -/
def scopeSettings : Settings := ⟨"http://example.com", "", [], [], false, false, false, false⟩

/-- Settings of the end-to-end scenario: seed/base URL
`http://example.com/`, query parameters disallowed, no keyword filters. -/
def scenarioSettings : Settings := ⟨"http://example.com/", "", [], [], false, false, false, false⟩

/-- The state of a fresh backing store. -/
def emptyState : CrawlState := ⟨[], [], [], [], [], 0, 0⟩

/-- The web of the end-to-end scenario: the seed page holds the three raw
links of the claim; every other URL would yield a 404 (none is fetched). -/
def scenarioWeb : String → FetchResult := fun u =>
  if u = "http://example.com/" then .response 200 "" ["/a", "/b?x=1", "http://other.com/c"]
  else .response 404 "" []

/-- A site that answers 403 to every request. -/
def blockedWeb : String → FetchResult := fun _ => .response 403 "" []


theorem kvGet_kvDel_self (l : List (String × String)) (k : String) :
    kvGet (kvDel l k) k = none := by
  induction l with
  | nil => rfl
  | cons a rest ih =>
    obtain ⟨ka, va⟩ := a
    by_cases ha : ka = k <;> simp [kvDel, kvGet, ha, ih]

theorem kvGet_kvDel_ne (l : List (String × String)) (k k' : String) (h : k' ≠ k) :
    kvGet (kvDel l k) k' = kvGet l k' := by
  induction l with
  | nil => rfl
  | cons a rest ih =>
    obtain ⟨ka, va⟩ := a
    by_cases ha : ka = k
    · have h2 : ¬ k = k' := fun hh => h hh.symm
      simp [kvDel, kvGet, ha, ih, h2]
    · simp [kvDel, kvGet, ha, ih]

theorem kvGet_kvSet_self (l : List (String × String)) (k v : String) :
    kvGet (kvSet l k v) k = some v := by
  simp [kvSet, kvGet]

theorem kvGet_kvSet_ne (l : List (String × String)) (k v : String) (k' : String)
    (h : k' ≠ k) : kvGet (kvSet l k v) k' = kvGet l k' := by
  have h2 : ¬ k = k' := fun hh => h hh.symm
  simp [kvSet, kvGet, h2, kvGet_kvDel_ne l k k' h]

theorem kvGet_foldl_kvDel_not (keys : List String) (l : List (String × String))
    (k : String) (h : k ∉ keys) : kvGet (keys.foldl kvDel l) k = kvGet l k := by
  induction keys generalizing l with
  | nil => rfl
  | cons a rest ih =>
    have hne : k ≠ a := fun hh => h (hh ▸ List.mem_cons_self a rest)
    have hr : k ∉ rest := fun hh => h (List.mem_cons_of_mem a hh)
    simp [List.foldl_cons, ih _ hr, kvGet_kvDel_ne _ _ _ hne]

theorem kvGet_foldl_kvDel_mem (keys : List String) (l : List (String × String))
    (k : String) (h : k ∈ keys) : kvGet (keys.foldl kvDel l) k = none := by
  induction keys generalizing l with
  | nil => cases h
  | cons a rest ih =>
    by_cases hr : k ∈ rest
    · simp [List.foldl_cons, ih _ hr]
    · have hk : k = a := by
        rcases List.mem_cons.mp h with h1 | h1
        · exact h1
        · exact absurd h1 hr
      subst hk
      simp [List.foldl_cons, kvGet_foldl_kvDel_not rest _ k hr, kvGet_kvDel_self]

theorem kvGet_foldl_kvSet_not (keys : List String) (l : List (String × String))
    (k : String) (h : k ∉ keys) :
    kvGet (keys.foldl (fun d k' => kvSet d k' "") l) k = kvGet l k := by
  induction keys generalizing l with
  | nil => rfl
  | cons a rest ih =>
    have hne : k ≠ a := fun hh => h (hh ▸ List.mem_cons_self a rest)
    have hr : k ∉ rest := fun hh => h (List.mem_cons_of_mem a hh)
    simp [List.foldl_cons, ih _ hr, kvGet_kvSet_ne _ _ _ _ hne]

theorem kvGet_foldl_kvSet_mem (keys : List String) (l : List (String × String))
    (k : String) (h : k ∈ keys) :
    kvGet (keys.foldl (fun d k' => kvSet d k' "") l) k = some "" := by
  induction keys generalizing l with
  | nil => cases h
  | cons a rest ih =>
    by_cases hr : k ∈ rest
    · simp [List.foldl_cons, ih _ hr]
    · have hk : k = a := by
        rcases List.mem_cons.mp h with h1 | h1
        · exact h1
        · exact absurd h1 hr
      subst hk
      simp [List.foldl_cons, kvGet_foldl_kvSet_not rest _ k hr, kvGet_kvSet_self]

/-- C8: for the link pipeline with base URL `http://example.com`, the raw
link `/about` yields candidate `http://example.com/about`, the raw link
`http://other.com/x` is rejected as out of scope, and the raw link
`http://example.com/x?y=1#z`, with query and hash parameters disallowed,
yields candidate `http://example.com/x`. -/
theorem c8_scope_filter :
    processLink scopeSettings "/about" = some "http://example.com/about" ∧
    processLink scopeSettings "http://other.com/x" = none ∧
    processLink scopeSettings "http://example.com/x?y=1#z" = some "http://example.com/x" := by
  refine ⟨?_, ?_, ?_⟩ <;> rfl

/-- C10: a failed `RandomKey` sample contributes the zero-value key `""` to
the batch: it is deleted from `todo`, inserted into `doing`, and dispatched;
the worker's `scrapeLinks` on the empty URL returns success with no links
and no data (before any fetch — here the fetch outcome is a transport error
and is never consulted), so `""` ends up inserted into `done`. -/
theorem c10_empty_key :
    (dispatchCycle emptyState [none]).2 = [""] ∧
    kvGet (dispatchCycle emptyState [none]).1.doing "" = some "" ∧
    kvGet (dispatchCycle emptyState [none]).1.todo "" = none ∧
    (workerStep scopeSettings 20 (dispatchCycle emptyState [none]).1 ""
      FetchResult.transportError).2 = ScrapeResult.ok [] "" ∧
    kvGet (workerStep scopeSettings 20 (dispatchCycle emptyState [none]).1 ""
      FetchResult.transportError).1.done "" = some "" ∧
    kvGet (workerStep scopeSettings 20 (dispatchCycle emptyState [none]).1 ""
      FetchResult.transportError).1.doing "" = none ∧
    kvGet (workerStep scopeSettings 20 (dispatchCycle emptyState [none]).1 ""
      FetchResult.transportError).1.todo "" = none := by
  refine ⟨?_, ?_, ?_, ?_, ?_, ?_, ?_⟩ <;> rfl

/-- A backend state in which `Init` has stored the serialized settings in
the reserved fifth key space (Redis DB 4) and one URL is enqueued. -/
def c9State : CrawlState :=
  { emptyState with todo := [("http://x.com/a", "")],
                    settings := [("settings", "serialized run settings")] }

/-- C9 is a code bug: `Flush` is implemented with four Redis `FLUSHALL`
commands (one per client), and FLUSHALL erases every database of the
server; so beside the four namespaces it also erases the fifth key space
holding the run's serialized settings, where the claim (and the spec's
`Flush()` contract) requires that key space to be left unchanged.  The
four per-client calls show the per-database FLUSHDB was intended. -/
theorem c9_flush_erases_settings :
    (flush c9State).todo = [] ∧ (flush c9State).doing = [] ∧
    (flush c9State).done = [] ∧ (flush c9State).trash = [] ∧
    (flush c9State).settings = [] ∧ c9State.settings ≠ [] := by
  refine ⟨rfl, rfl, rfl, rfl, rfl, by decide⟩

/-- C3 fails on the code: with base URL `http://example.com/` and query
parameters disallowed, the raw links `/a` and `/b?x=1` are stripped to the
length-2 strings `/a` and `/b`, which the `len(link) > 2` guard leaves
un-prefixed, so they fail the scope filter; `http://other.com/c` is out of
scope.  The pipeline hence produces no candidates at all — in particular
not `http://example.com/a` and `http://example.com/b` as the claim says. -/
theorem c3_counterexample :
    processLinks scenarioSettings ["/a", "/b?x=1", "http://other.com/c"] = [] ∧
    "http://example.com/a" ∉ processLinks scenarioSettings ["/a", "/b?x=1", "http://other.com/c"] ∧
    "http://example.com/b" ∉ processLinks scenarioSettings ["/a", "/b?x=1", "http://other.com/c"] := by
  have h : processLinks scenarioSettings ["/a", "/b?x=1", "http://other.com/c"] = [] := rfl
  exact ⟨h, by simp [h], by simp [h]⟩

/-- The end-to-end scenario run: seed `http://example.com/` against the
scenario web, enough fuel to reach quiescence. -/
def c3Run : RunResult :=
  runCrawl scenarioSettings 20 8 500 scenarioWeb 6 true
    { emptyState with todo := [("http://example.com/", "")] }

/-- C3 amended: in the end-to-end scenario the link pipeline rejects all
three raw links, so the run ends with `Done` holding exactly the seed with
empty data and every other namespace empty: `http://example.com/a` and
`http://example.com/b` are never enqueued, and `http://other.com/c` never
appears in any namespace. -/
theorem c3_amended_run :
    c3Run.finished = true ∧ c3Run.fatalErr = none ∧
    c3Run.state.done = [("http://example.com/", "")] ∧
    c3Run.state.todo = [] ∧ c3Run.state.doing = [] ∧ c3Run.state.trash = [] := by
  refine ⟨?_, ?_, ?_, ?_, ?_, ?_⟩ <;> rfl

/-- A run on a site that answers 403 everywhere, with
maximum-number-of-errors 3 and three seeds: three consecutive 403s. -/
def c1RunThree : RunResult :=
  runCrawl scenarioSettings 3 8 500 blockedWeb 8 true
    { emptyState with todo := [("http://x.com/a", ""), ("http://x.com/b", ""),
                              ("http://x.com/c", "")] }

/-- Same site, four seeds and fuel 6: the counter exceeds the maximum. -/
def c1RunFour : RunResult :=
  runCrawl scenarioSettings 3 8 500 blockedWeb 6 true
    { emptyState with todo := [("http://x.com/a", ""), ("http://x.com/b", ""),
                              ("http://x.com/c", ""), ("http://x.com/d", "")] }

/-- C1 fails on the code: with maximum-number-of-errors 3, a run of three
consecutive 403 responses is NOT aborted — it runs to quiescence and
`Crawl` returns a nil error with the counter at 3; and even when the
counter exceeds the maximum (four 403s, counter 9 after retries) no fatal
error is returned: the worker swallows the scrape error and keeps retrying
the URL (still present in `todo`). -/
theorem c1_counterexample :
    c1RunThree.finished = true ∧ c1RunThree.fatalErr = none ∧
    c1RunThree.state.errors = 3 ∧
    c1RunFour.fatalErr = none ∧ c1RunFour.finished = false ∧
    3 < c1RunFour.state.errors ∧
    kvGet c1RunFour.state.todo "http://x.com/d" = some "" := by
  refine ⟨?_, ?_, ?_, ?_, ?_, ?_, ?_⟩ <;> first | rfl | decide

/-- The state after the worker has fully processed a 404 response for a URL
it had claimed from `doing` — an observation point between completed
operations. -/
def c2State : CrawlState := { emptyState with doing := [("http://ex.com/p", "")] }

/-- C2 fails on the code: a worker that receives a non-200 response for a
URL trashes it inside `scrapeLinks`, but `scrapeLinks` then returns a nil
error, so the worker also marks the same URL done — after the completed
step the URL sits in two namespaces (`trash` and `done`) at once. -/
theorem c2_counterexample :
    nsCount (workerStep scopeSettings 20 c2State "http://ex.com/p"
      (FetchResult.response 404 "" [])).1 "http://ex.com/p" = 2 ∧
    kvGet (workerStep scopeSettings 20 c2State "http://ex.com/p"
      (FetchResult.response 404 "" [])).1.done "http://ex.com/p" = some "" ∧
    kvGet (workerStep scopeSettings 20 c2State "http://ex.com/p"
      (FetchResult.response 404 "" [])).1.trash "http://ex.com/p" = some "" := by
  refine ⟨?_, ?_, ?_⟩ <;> rfl

/-- C4: `addLinkToDo` with `force = false` is a silent no-op when the URL
is already present in any of the four namespaces, and otherwise inserts it
into `todo` with an empty value; enqueuing the same fresh URL twice with
`force = false` leaves exactly one entry across all namespaces; with
`force = true` it always inserts into `todo` regardless of prior
presence. -/
theorem c4_enqueue_dedup :
    (∀ (st : CrawlState) (url : String), linkKnown st url = true →
      addLinkToDo st url false = st) ∧
    (∀ (st : CrawlState) (url : String), linkKnown st url = false →
      addLinkToDo st url false = { st with todo := kvSet st.todo url "" } ∧
      kvGet (addLinkToDo st url false).todo url = some "") ∧
    (∀ (st : CrawlState) (url : String), linkKnown st url = false →
      nsCount (addLinkToDo (addLinkToDo st url false) url false) url = 1) ∧
    (∀ (st : CrawlState) (url : String),
      kvGet (addLinkToDo st url true).todo url = some "") := by
  refine ⟨?_, ?_, ?_, ?_⟩
  · intro st url h
    simp [addLinkToDo, h]
  · intro st url h
    simp [addLinkToDo, h, kvGet_kvSet_self]
  · intro st url h
    have hfirst : addLinkToDo st url false = { st with todo := kvSet st.todo url "" } := by
      simp [addLinkToDo, h]
    have hknown : linkKnown { st with todo := kvSet st.todo url "" } url = true := by
      simp [linkKnown, kvGet_kvSet_self]
    have hsecond :
        addLinkToDo { st with todo := kvSet st.todo url "" } url false =
          { st with todo := kvSet st.todo url "" } := by
      simp [addLinkToDo, hknown]
    rw [hfirst, hsecond]
    have hb : (kvGet st.doing url).isSome = false := by
      cases hb2 : (kvGet st.doing url).isSome
      · rfl
      · exfalso; simp [linkKnown, hb2] at h
    have hc : (kvGet st.done url).isSome = false := by
      cases hc2 : (kvGet st.done url).isSome
      · rfl
      · exfalso; simp [linkKnown, hc2] at h
    have hd : (kvGet st.trash url).isSome = false := by
      cases hd2 : (kvGet st.trash url).isSome
      · rfl
      · exfalso; simp [linkKnown, hd2] at h
    simp [nsCount, kvGet_kvSet_self, hb, hc, hd]
  · intro st url
    simp [addLinkToDo, kvGet_kvSet_self]

/-- C4 witness: the dedup-idempotence conjunct at a fresh URL on an empty
store. -/
theorem c4_enqueue_dedup_witness :
    nsCount (addLinkToDo (addLinkToDo emptyState "http://x.com/a" false)
      "http://x.com/a" false) "http://x.com/a" = 1 :=
  c4_enqueue_dedup.2.2.1 emptyState "http://x.com/a" (by decide)

/-- C5: a worker receiving a non-200 response that does not trip the block
circuit breaker deletes the URL from `doing` and `todo` and inserts it into
`trash` with empty value, and the URL is not re-inserted into `todo`: it is
absent from `todo` after the step and any later `force = false` enqueue of
it is a no-op. -/
theorem c5_discard_non200 :
    ∀ (s : Settings) (maxErrors : Int) (st : CrawlState) (url p : String)
      (links : List String) (status : Nat),
      url ≠ "" → status ≠ 200 → ¬(status = 403 ∧ st.errors + 1 > maxErrors) →
      kvGet (workerStep s maxErrors st url (.response status p links)).1.trash url = some "" ∧
      kvGet (workerStep s maxErrors st url (.response status p links)).1.todo url = none ∧
      kvGet (workerStep s maxErrors st url (.response status p links)).1.doing url = none ∧
      addLinkToDo (workerStep s maxErrors st url (.response status p links)).1 url false =
        (workerStep s maxErrors st url (.response status p links)).1 := by
  intro s maxErrors st url p links status hurl h200 hcb
  by_cases h403 : status = 403
  · have hle : ¬ (st.errors + 1 > maxErrors) := fun hgt => hcb ⟨h403, hgt⟩
    subst h403
    simp [workerStep, scrapeLinks, hurl, hle, kvGet_kvSet_self, kvGet_kvDel_self,
      addLinkToDo, linkKnown]
  · simp [workerStep, scrapeLinks, hurl, h200, h403, kvGet_kvSet_self, kvGet_kvDel_self,
      addLinkToDo, linkKnown]

/-- C5 witness: a 404 on a fresh store. -/
theorem c5_discard_non200_witness :
    kvGet (workerStep scopeSettings 20 emptyState "http://x.com/p"
      (.response 404 "" [])).1.trash "http://x.com/p" = some "" ∧
    kvGet (workerStep scopeSettings 20 emptyState "http://x.com/p"
      (.response 404 "" [])).1.todo "http://x.com/p" = none ∧
    kvGet (workerStep scopeSettings 20 emptyState "http://x.com/p"
      (.response 404 "" [])).1.doing "http://x.com/p" = none ∧
    addLinkToDo (workerStep scopeSettings 20 emptyState "http://x.com/p"
      (.response 404 "" [])).1 "http://x.com/p" false =
      (workerStep scopeSettings 20 emptyState "http://x.com/p"
        (.response 404 "" [])).1 :=
  c5_discard_non200 scopeSettings 20 emptyState "http://x.com/p" "" [] 404
    (by decide) (by decide) (by decide)

/-- C1 amended: each 403 response increments the block counter and each
200 response resets it to zero; when the counter exceeds the configured
maximum after a 403, `scrapeLinks` returns an error, but the worker treats
it as a transient failure — the URL (already placed in `trash`) is
re-inserted into `todo` and the loop continues — and the crawl run is
never aborted: `Crawl` never returns a fatal error to its caller. -/
theorem c1_amended :
    (∀ (s : Settings) (maxErrors : Int) (st : CrawlState) (url p : String)
      (links : List String), url ≠ "" →
      (scrapeLinks s maxErrors st url (.response 403 p links)).1.errors = st.errors + 1) ∧
    (∀ (s : Settings) (maxErrors : Int) (st : CrawlState) (url p : String)
      (links : List String), url ≠ "" →
      (scrapeLinks s maxErrors st url (.response 200 p links)).1.errors = 0) ∧
    (∀ (s : Settings) (maxErrors : Int) (st : CrawlState) (url p : String)
      (links : List String), url ≠ "" → st.errors + 1 > maxErrors →
      (∃ msg, (workerStep s maxErrors st url (.response 403 p links)).2 =
        ScrapeResult.fail msg) ∧
      kvGet (workerStep s maxErrors st url (.response 403 p links)).1.todo url = some "" ∧
      kvGet (workerStep s maxErrors st url (.response 403 p links)).1.trash url = some "") ∧
    (∀ (s : Settings) (maxErrors : Int) (w maxQueue : Nat) (web : String → FetchResult)
      (fuel : Nat) (hr : Bool) (st : CrawlState),
      (runCrawl s maxErrors w maxQueue web fuel hr st).fatalErr = none) := by
  refine ⟨?_, ?_, ?_, ?_⟩
  · intro s maxErrors st url p links hurl
    by_cases hthr : st.errors + 1 > maxErrors <;> simp [scrapeLinks, hurl, hthr]
  · intro s maxErrors st url p links hurl
    simp only [scrapeLinks, if_neg hurl]
    split
    · next h => exact absurd rfl h
    · split
      · rfl
      · split <;> rfl
  · intro s maxErrors st url p links hurl hthr
    simp [workerStep, scrapeLinks, hurl, hthr, kvGet_kvSet_self]
  · intro s maxErrors w maxQueue web fuel
    induction fuel with
    | zero => intro hr st; rfl
    | succ n ih =>
      intro hr st
      simp only [runCrawl]
      split
      · exact ih _ _
      · split
        · split
          · exact ih _ _
          · rfl
        · exact ih _ _

/-- C1 witness: the over-threshold conjunct at a counter already at the
maximum 3. -/
theorem c1_amended_witness :
    (∃ msg, (workerStep scopeSettings 3 { emptyState with errors := 3 }
      "http://x.com/u" (.response 403 "" [])).2 = ScrapeResult.fail msg) ∧
    kvGet (workerStep scopeSettings 3 { emptyState with errors := 3 }
      "http://x.com/u" (.response 403 "" [])).1.todo "http://x.com/u" = some "" ∧
    kvGet (workerStep scopeSettings 3 { emptyState with errors := 3 }
      "http://x.com/u" (.response 403 "" [])).1.trash "http://x.com/u" = some "" :=
  c1_amended.2.2.1 scopeSettings 3 { emptyState with errors := 3 }
    "http://x.com/u" "" [] (by decide) (by decide)

/-- C7: with maximum in-flight size `MaxQueueSize`, a dispatcher cycle that
observes a `doing` size above the bound only backs off — it neither samples
`todo` nor issues a batch (sampling and dispatch happen only in the
`dispatch` action) — and along any run of the loop, every observation whose
`doing` size exceeds the bound yields the backoff action. -/
theorem c7_backpressure :
    (∀ (maxQueue : Nat) (hr : Bool) (ob : Nat × Nat), ob.1 > maxQueue →
      cycleAction maxQueue hr ob = (CycleAction.backoff, hr)) ∧
    (∀ (maxQueue : Nat) (obs : List (Nat × Nat)) (hr : Bool) (i : Nat) (p : Nat × Nat)
      (a : CycleAction), obs.get? i = some p → p.1 > maxQueue →
      (loopActions maxQueue obs hr).get? i = some a → a = CycleAction.backoff) := by
  constructor
  · intro maxQueue hr ob h
    simp [cycleAction, h]
  · intro maxQueue obs
    induction obs with
    | nil => intro hr i p a h1 h2 h3; simp at h1
    | cons ob rest ih =>
      intro hr i p a h1 h2 h3
      cases i with
      | zero =>
        have hob : ob = p := by simpa using h1
        subst hob
        have hca : cycleAction maxQueue hr ob = (CycleAction.backoff, hr) := by
          simp [cycleAction, h2]
        simp only [loopActions, hca] at h3
        simp at h3
        exact h3.symm
      | succ i =>
        simp only [loopActions] at h3
        by_cases he : (cycleAction maxQueue hr ob).1 = CycleAction.exitLoop
        · rw [if_pos he] at h3
          simp at h3
        · rw [if_neg he] at h3
          simp only [List.get?_cons_succ] at h3
          have h1' : rest.get? i = some p := by simpa using h1
          exact ih _ i p a h1' h2 h3

/-- C7 witness: a cycle observing `doing` size 501 with bound 500. -/
theorem c7_backpressure_witness :
    cycleAction 500 true (501, 5) = (CycleAction.backoff, true) :=
  c7_backpressure.1 500 true (501, 5) (by decide)

theorem emptyCheckAt_zero (maxQueue : Nat) (ob : Nat × Nat) (obs : List (Nat × Nat))
    (h1 : ob.2 = 0) (h2 : ob.1 ≤ maxQueue) : emptyCheckAt maxQueue (ob :: obs) 0 :=
  ⟨ob.1, by simp [Prod.ext_iff, h1], h2⟩

theorem emptyCheckAt_succ (maxQueue : Nat) (ob : Nat × Nat) (obs : List (Nat × Nat))
    (i : Nat) : emptyCheckAt maxQueue (ob :: obs) (i + 1) ↔ emptyCheckAt maxQueue obs i := by
  simp [emptyCheckAt]

theorem backpressureAt_zero (maxQueue : Nat) (ob : Nat × Nat) (obs : List (Nat × Nat))
    (h : ob.1 > maxQueue) : backpressureAt maxQueue (ob :: obs) 0 :=
  ⟨ob, by simp, h⟩

theorem backpressureAt_succ (maxQueue : Nat) (ob : Nat × Nat) (obs : List (Nat × Nat))
    (i : Nat) : backpressureAt maxQueue (ob :: obs) (i + 1) ↔ backpressureAt maxQueue obs i := by
  simp [backpressureAt]

/-- Exit-shape lemma for the dispatcher loop: whenever the loop exits, the
exiting observation is an empty check, and either the flag was already
cleared and every earlier cycle was a backpressure skip, or some earlier
empty check cleared the flag and every cycle strictly between the two
checks was a backpressure skip. -/
theorem loopExit_cases (maxQueue : Nat) :
    ∀ (obs : List (Nat × Nat)) (hr : Bool) (i : Nat),
      loopExit maxQueue obs hr = some i →
      emptyCheckAt maxQueue obs i ∧
      ((hr = false ∧ ∀ k, k < i → backpressureAt maxQueue obs k) ∨
       (∃ j, j < i ∧ emptyCheckAt maxQueue obs j ∧
         ∀ k, j < k → k < i → backpressureAt maxQueue obs k)) := by
  intro obs
  induction obs with
  | nil =>
    intro hr i h
    simp [loopExit] at h
  | cons ob rest ih =>
    intro hr i h
    simp only [loopExit] at h
    by_cases hbp : ob.1 > maxQueue
    · have hca : cycleAction maxQueue hr ob = (CycleAction.backoff, hr) := by
        simp [cycleAction, hbp]
      rw [hca] at h
      simp at h
      obtain ⟨i', hrec, hi⟩ := h
      subst hi
      obtain ⟨hec, hdisj⟩ := ih hr i' hrec
      refine ⟨(emptyCheckAt_succ _ _ _ _).mpr hec, ?_⟩
      rcases hdisj with ⟨hhr, hall⟩ | ⟨j, hj, hecj, hall⟩
      · left
        refine ⟨hhr, ?_⟩
        intro k hk
        cases k with
        | zero => exact backpressureAt_zero _ _ _ hbp
        | succ k =>
          exact (backpressureAt_succ _ _ _ _).mpr (hall k (Nat.lt_of_succ_lt_succ hk))
      · right
        refine ⟨j + 1, Nat.succ_lt_succ hj, (emptyCheckAt_succ _ _ _ _).mpr hecj, ?_⟩
        intro k hk1 hk2
        cases k with
        | zero => exact absurd hk1 (Nat.not_lt_zero _)
        | succ k =>
          exact (backpressureAt_succ _ _ _ _).mpr
            (hall k (Nat.lt_of_succ_lt_succ hk1) (Nat.lt_of_succ_lt_succ hk2))
    · by_cases hz : ob.2 = 0
      · cases hr with
        | false =>
          have hca : cycleAction maxQueue false ob = (CycleAction.exitLoop, false) := by
            simp [cycleAction, hbp, hz]
          rw [hca] at h
          simp at h
          subst h
          refine ⟨emptyCheckAt_zero _ _ _ hz (Nat.le_of_not_lt hbp), Or.inl ⟨rfl, ?_⟩⟩
          intro k hk
          exact absurd hk (Nat.not_lt_zero _)
        | true =>
          have hca : cycleAction maxQueue true ob = (CycleAction.grace, false) := by
            simp [cycleAction, hbp, hz]
          rw [hca] at h
          simp at h
          obtain ⟨i', hrec, hi⟩ := h
          subst hi
          obtain ⟨hec, hdisj⟩ := ih false i' hrec
          refine ⟨(emptyCheckAt_succ _ _ _ _).mpr hec, Or.inr ?_⟩
          rcases hdisj with ⟨_, hall⟩ | ⟨j, hj, hecj, hall⟩
          · refine ⟨0, Nat.succ_pos _, emptyCheckAt_zero _ _ _ hz (Nat.le_of_not_lt hbp), ?_⟩
            intro k hk1 hk2
            cases k with
            | zero => exact absurd hk1 (lt_irrefl 0)
            | succ k =>
              exact (backpressureAt_succ _ _ _ _).mpr (hall k (Nat.lt_of_succ_lt_succ hk2))
          · refine ⟨j + 1, Nat.succ_lt_succ hj, (emptyCheckAt_succ _ _ _ _).mpr hecj, ?_⟩
            intro k hk1 hk2
            cases k with
            | zero => exact absurd hk1 (Nat.not_lt_zero _)
            | succ k =>
              exact (backpressureAt_succ _ _ _ _).mpr
                (hall k (Nat.lt_of_succ_lt_succ hk1) (Nat.lt_of_succ_lt_succ hk2))
      · have hca : cycleAction maxQueue hr ob = (CycleAction.dispatch, true) := by
          simp [cycleAction, hbp, hz]
        rw [hca] at h
        simp at h
        obtain ⟨i', hrec, hi⟩ := h
        subst hi
        obtain ⟨hec, hdisj⟩ := ih true i' hrec
        refine ⟨(emptyCheckAt_succ _ _ _ _).mpr hec, Or.inr ?_⟩
        rcases hdisj with ⟨hft, _⟩ | ⟨j, hj, hecj, hall⟩
        · exact absurd hft (by simp)
        · refine ⟨j + 1, Nat.succ_lt_succ hj, (emptyCheckAt_succ _ _ _ _).mpr hecj, ?_⟩
          intro k hk1 hk2
          cases k with
          | zero => exact absurd hk1 (Nat.not_lt_zero _)
          | succ k =>
            exact (backpressureAt_succ _ _ _ _).mpr
              (hall k (Nat.lt_of_succ_lt_succ hk1) (Nat.lt_of_succ_lt_succ hk2))

/-- C6: starting from a fresh `haveResults = true` flag, the dispatcher
loop exits only on an observation reading `todo` empty that is preceded by
an earlier empty check with nothing but backpressure skips in between —
two consecutive empty checks separated by the grace wait; and a single
empty observation followed by a non-empty one does not terminate the
run. -/
theorem c6_quiescence :
    (∀ (maxQueue : Nat) (obs : List (Nat × Nat)) (i : Nat),
      loopExit maxQueue obs true = some i →
      ∃ j, j < i ∧ emptyCheckAt maxQueue obs j ∧ emptyCheckAt maxQueue obs i ∧
        ∀ k, j < k → k < i → backpressureAt maxQueue obs k) ∧
    loopExit 500 [(0, 0), (0, 7)] true = none := by
  constructor
  · intro maxQueue obs i h
    obtain ⟨hec, hdisj⟩ := loopExit_cases maxQueue obs true i h
    rcases hdisj with ⟨hft, _⟩ | ⟨j, hj, hecj, hall⟩
    · exact absurd hft (by simp)
    · exact ⟨j, hj, hecj, hec, hall⟩
  · rfl

/-- C6 witness: a trace exiting at index 2 after an empty check at index 0
and a backpressure skip at index 1. -/
theorem c6_quiescence_witness :
    ∃ j, j < 2 ∧ emptyCheckAt 500 [(0, 0), (600, 1), (0, 0)] j ∧
      emptyCheckAt 500 [(0, 0), (600, 1), (0, 0)] 2 ∧
      ∀ k, j < k → k < 2 → backpressureAt 500 [(0, 0), (600, 1), (0, 0)] k :=
  c6_quiescence.1 500 [(0, 0), (600, 1), (0, 0)] 2 rfl

theorem partition_set_errors (st : CrawlState) (e : Int) (h : Partition st) :
    Partition { st with errors := e } := by
  intro k
  have := h k
  simpa [nsCount] using this

theorem partition_set_parsed (st : CrawlState) (n : Nat) (h : Partition st) :
    Partition { st with parsed := n } := by
  intro k
  have := h k
  simpa [nsCount] using this

/-- Under the partition invariant, a key present in `todo` is absent from
the other three namespaces. -/
theorem partition_todo_only (st : CrawlState) (k : String) (h : nsCount st k ≤ 1)
    (ht : (kvGet st.todo k).isSome = true) :
    (kvGet st.doing k).isSome = false ∧ (kvGet st.done k).isSome = false ∧
    (kvGet st.trash k).isSome = false := by
  by_cases h1 : (kvGet st.doing k).isSome <;> by_cases h2 : (kvGet st.done k).isSome <;>
    by_cases h3 : (kvGet st.trash k).isSome <;> simp_all [nsCount]

theorem addLink_partition (st : CrawlState) (url : String) (h : Partition st) :
    Partition (addLinkToDo st url false) := by
  unfold addLinkToDo
  by_cases hk : (!false && linkKnown st url) = true
  · rw [if_pos hk]
    exact h
  · rw [if_neg hk]
    have hk' : linkKnown st url = false := by simpa using hk
    have ha : (kvGet st.todo url).isSome = false := by
      cases hx : (kvGet st.todo url).isSome
      · rfl
      · exfalso; simp [linkKnown, hx] at hk'
    have hb : (kvGet st.doing url).isSome = false := by
      cases hx : (kvGet st.doing url).isSome
      · rfl
      · exfalso; simp [linkKnown, hx] at hk'
    have hc : (kvGet st.done url).isSome = false := by
      cases hx : (kvGet st.done url).isSome
      · rfl
      · exfalso; simp [linkKnown, hx] at hk'
    have hd : (kvGet st.trash url).isSome = false := by
      cases hx : (kvGet st.trash url).isSome
      · rfl
      · exfalso; simp [linkKnown, hx] at hk'
    intro k
    by_cases hku : k = url
    · subst hku
      simp [nsCount, kvGet_kvSet_self, hb, hc, hd]
    · have := h k
      simpa [nsCount, kvGet_kvSet_ne _ _ _ _ hku] using this

theorem foldl_addLink_partition (links : List String) (st : CrawlState)
    (h : Partition st) :
    Partition (links.foldl (fun acc l => addLinkToDo acc l false) st) := by
  induction links generalizing st with
  | nil => exact h
  | cons a rest ih => exact ih _ (addLink_partition _ _ h)

theorem moveToDoing_partition (st : CrawlState) (keys : List String) (h : Partition st)
    (hk : ∀ k ∈ keys, (kvGet st.todo k).isSome = true) :
    Partition (moveToDoing st keys) := by
  intro k
  by_cases hm : k ∈ keys
  · obtain ⟨hb, hc, hd⟩ := partition_todo_only st k (h k) (hk k hm)
    simp [moveToDoing, nsCount, kvGet_foldl_kvDel_mem _ _ _ hm,
      kvGet_foldl_kvSet_mem _ _ _ hm, hc, hd]
  · have := h k
    simpa [moveToDoing, nsCount, kvGet_foldl_kvDel_not _ _ _ hm,
      kvGet_foldl_kvSet_not _ _ _ hm] using this

/-- The `Complete` move — delete from `doing`, insert into `done` —
preserves the partition when the key is not in `todo`, `done` or `trash`. -/
theorem complete_partition (st : CrawlState) (url p : String) (h : Partition st)
    (h1 : kvGet st.todo url = none) (h2 : kvGet st.done url = none)
    (h3 : kvGet st.trash url = none) :
    Partition { st with doing := kvDel st.doing url, done := kvSet st.done url p } := by
  intro k
  by_cases hk : k = url
  · subst hk
    simp [nsCount, kvGet_kvDel_self, kvGet_kvSet_self, h1, h3]
  · have := h k
    simpa [nsCount, kvGet_kvDel_ne _ _ _ hk, kvGet_kvSet_ne _ _ _ _ hk] using this

/-- The `Requeue` move — delete from `doing`, insert into `todo` —
preserves the partition when the key is not in `done` or `trash`. -/
theorem requeue_partition (st : CrawlState) (url : String) (h : Partition st)
    (h2 : kvGet st.done url = none) (h3 : kvGet st.trash url = none) :
    Partition { st with doing := kvDel st.doing url, todo := kvSet st.todo url "" } := by
  intro k
  by_cases hk : k = url
  · subst hk
    simp [nsCount, kvGet_kvDel_self, kvGet_kvSet_self, h2, h3]
  · have := h k
    simpa [nsCount, kvGet_kvDel_ne _ _ _ hk, kvGet_kvSet_ne _ _ _ _ hk] using this

/-- C2 amended: each force-free enqueue, each dispatcher move of keys
sampled from `todo`, each worker completion of a 200 response (or
transport-error requeue) of a URL not already in `todo`/`done`/`trash`
preserves the at-most-one-namespace partition invariant; but the invariant
does not hold of every step of the code: a worker processing a non-200
response that does not trip the circuit breaker leaves the URL counted in
two namespaces at once (`trash`, from `scrapeLinks`, and `done`, because
`scrapeLinks` returns a nil error for such a response). -/
theorem c2_amended :
    (∀ (st : CrawlState) (url : String), Partition st →
      Partition (addLinkToDo st url false)) ∧
    (∀ (st : CrawlState) (keys : List String), Partition st →
      (∀ k ∈ keys, (kvGet st.todo k).isSome = true) →
      Partition (moveToDoing st keys)) ∧
    (∀ (s : Settings) (maxErrors : Int) (st : CrawlState) (url p : String)
      (links : List String), Partition st →
      kvGet st.todo url = none → kvGet st.done url = none → kvGet st.trash url = none →
      Partition (workerStep s maxErrors st url (.response 200 p links)).1) ∧
    (∀ (s : Settings) (maxErrors : Int) (st : CrawlState) (url : String), Partition st →
      kvGet st.todo url = none → kvGet st.done url = none → kvGet st.trash url = none →
      Partition (workerStep s maxErrors st url FetchResult.transportError).1) ∧
    (∀ (s : Settings) (maxErrors : Int) (st : CrawlState) (url p : String)
      (links : List String) (status : Nat), url ≠ "" → status ≠ 200 →
      ¬(status = 403 ∧ st.errors + 1 > maxErrors) →
      2 ≤ nsCount (workerStep s maxErrors st url (.response status p links)).1 url) := by
  refine ⟨?_, ?_, ?_, ?_, ?_⟩
  · intro st url hp
    exact addLink_partition st url hp
  · intro st keys hp hk
    exact moveToDoing_partition st keys hp hk
  · intro s maxErrors st url p links hp h1 h2 h3
    have hp0 : Partition { st with errors := (0 : Int) } := partition_set_errors st 0 hp
    by_cases hu : url = ""
    · subst hu
      simp only [workerStep, scrapeLinks, if_pos rfl]
      exact partition_set_parsed _ _ (complete_partition st "" "" hp h1 h2 h3)
    · simp only [workerStep, scrapeLinks, if_neg hu]
      rw [if_neg (show ¬ (200 : Nat) ≠ 200 by simp)]
      by_cases hf : s.pluckConfig ≠ "" ∧ s.requirePluck = true ∧ p.length = 0
      · rw [if_pos hf]
        exact requeue_partition _ url hp0 h2 h3
      · rw [if_neg hf]
        by_cases hd : s.dontFollowLinks = true
        · rw [if_pos hd]
          exact partition_set_parsed _ _ (complete_partition _ url _ hp0 h1 h2 h3)
        · rw [if_neg hd]
          exact partition_set_parsed _ _
            (foldl_addLink_partition _ _ (complete_partition _ url _ hp0 h1 h2 h3))
  · intro s maxErrors st url hp h1 h2 h3
    by_cases hu : url = ""
    · subst hu
      simp only [workerStep, scrapeLinks, if_pos rfl]
      exact partition_set_parsed _ _ (complete_partition st "" "" hp h1 h2 h3)
    · simp only [workerStep, scrapeLinks, if_neg hu]
      exact requeue_partition st url hp h2 h3
  · intro s maxErrors st url p links status hurl h200 hcb
    by_cases h403 : status = 403
    · have hle : ¬ (st.errors + 1 > maxErrors) := fun hgt => hcb ⟨h403, hgt⟩
      subst h403
      simp [workerStep, scrapeLinks, hurl, hle, nsCount, kvGet_kvSet_self, kvGet_kvDel_self]
    · simp [workerStep, scrapeLinks, hurl, h200, h403, nsCount, kvGet_kvSet_self,
        kvGet_kvDel_self]

/-- C2 witness: the force-free enqueue conjunct on an empty store. -/
theorem c2_amended_witness :
    Partition (addLinkToDo emptyState "http://x.com/a" false) :=
  c2_amended.1 emptyState "http://x.com/a" (fun k => by simp [nsCount, emptyState, kvGet])

end DCrawl
